import Mathlib

/-!
Shallow embedding of the repository's two Python modules:

* `animj.py` — matplotlib-animation helpers (`def_lines`, `update_lines`,
  `update_lines_counter`).  Line/text artists are modelled as an explicit
  `Handle` state; the in-place mutation performed by a call is modelled by
  returning the updated handle list, and a raised Python exception is
  modelled by `PyResult.raised`, which carries the handle states observable
  at the moment the exception propagates (Python mutations are not rolled
  back by an exception).

* `matlabimport.py` — MATLAB-file normalization (`load_data`,
  `load_trialdata`).  The external scipy reader is a black box: its output
  is modelled as an association list from key to `Except PyErr MatValue`,
  where an `Except.error` entry stands for a stored value whose retrieval
  raises (the reason the source wraps the default copy in a bare
  `try/except`).  Python `%`-string formatting is modelled opaquely as the
  pair of template and argument.
-/

set_option maxHeartbeats 1000000

namespace Demos

/-- Python exception kinds raised by the modelled code paths. -/
inductive PyErr where
  | valueError : String → PyErr
  | indexError : PyErr
  | keyError : String → PyErr
  | attributeError : String → PyErr
  | typeError : String → PyErr
  deriving DecidableEq, Repr

/-- Resolve a (possibly negative) Python index/slice bound against a
sequence of length `n`, with Python's clamping semantics. -/
def pyIdxClamp (n : Nat) (i : Int) : Nat :=
  if i < 0 then ((n : Int) + i).toNat else min i.toNat n

/-- Python slice `l[a:b]` (step 1): negative bounds count from the end,
out-of-range bounds are clamped, and an empty range yields `[]`. -/
def pySlice {α : Type} (l : List α) (a b : Int) : List α :=
  (l.take (pyIdxClamp l.length b)).drop (pyIdxClamp l.length a)

/-- Python item access `l[i]`: negative indices count from the end;
a resolved index outside the list raises `IndexError`. -/
def pyGet {α : Type} (l : List α) (i : Int) : Except PyErr α :=
  let j : Int := if i < 0 then (l.length : Int) + i else i
  if 0 ≤ j then
    match l.get? j.toNat with
    | some a => Except.ok a
    | none => Except.error PyErr.indexError
  else Except.error PyErr.indexError

/-! ## `animj.py` -/

/-- State of a matplotlib line artist: the data set by `set_data`, the
depth data set by `set_3d_properties`, and the marker style. -/
structure LineState where
  xdata : List Int
  ydata : List Int
  zdata : List Int
  marker : Option String
  deriving DecidableEq, Repr

/-- Content of a text artist.  `%`-formatting (`template % value`) is
modelled opaquely as the `formatted` pair of template and argument. -/
inductive TextContent where
  | plain : String → TextContent
  | formatted : String → Int → TextContent
  deriving DecidableEq, Repr

/-- A plot handle is either a line artist or a text artist. -/
inductive Handle where
  | line : LineState → Handle
  | text : TextContent → Handle
  deriving DecidableEq, Repr

def Handle.isLine : Handle → Bool
  | .line _ => true
  | .text _ => false

/-- `line.set_data(arr)` with a 2×k array: unpacks the two rows into x and
y data.  A text artist has no `set_data` attribute; an array without
exactly two rows fails to unpack. -/
def Handle.setDataArr : Handle → List (List Int) → Except PyErr Handle
  | .line s, [x, y] => Except.ok (.line { s with xdata := x, ydata := y })
  | .line _, _ => Except.error (.valueError "unpack")
  | .text _, _ => Except.error (.attributeError "set_data")

/-- `line.set_3d_properties(z)`. -/
def Handle.set3dProps : Handle → List Int → Except PyErr Handle
  | .line s, z => Except.ok (.line { s with zdata := z })
  | .text _, _ => Except.error (.attributeError "set_3d_properties")

/-- `line.set_marker(m)`. -/
def Handle.setMarker : Handle → String → Except PyErr Handle
  | .line s, m => Except.ok (.line { s with marker := some m })
  | .text _, _ => Except.error (.attributeError "set_marker")

/-- `text.set_text(template % value)`; a line artist has no `set_text`
attribute (the attribute lookup fails before the argument is evaluated). -/
def Handle.isText : Handle → Bool
  | .line _ => false
  | .text _ => true

/-- A trajectory bundle: the numpy array of size
`(numlines, numdimensions, numsamples)` passed as `plotdata`, with its
shape recorded as numpy records it. -/
structure Bundle where
  numlines : Nat
  numdims : Nat
  numsamples : Nat
  data : List (List (List Int))
  deriving Repr

/-- Well-formedness of a bundle: the nested lists actually have the
rectangular numpy shape `(numlines, numdims, numsamples)`. -/
def Bundle.wf (b : Bundle) : Prop :=
  b.data.length = b.numlines ∧
    ∀ t ∈ b.data, t.length = b.numdims ∧ ∀ r ∈ t, r.length = b.numsamples

instance (b : Bundle) : Decidable b.wf := by
  unfold Bundle.wf
  infer_instance

/-- The body of the `for line, data in zip(lines, plotdata)` loop of
`update_lines` (and of `update_lines_counter`), acting on one handle:
slice the trajectory according to `num`/`numsamples`, push it with
`set_data` (plus `set_3d_properties` when `num_dims == 3`), and set the
marker.  Note the source has no `else` branch: for `num_dims ∉ {2,3}` no
data is pushed but the marker is still set. -/
def updateOne (num_dims : Nat) (num : Int) (numsamples : Option Int)
    (line : Handle) (data : List (List Int)) : Except PyErr Handle := do
  let line ←
    match numsamples with
    | none =>
      if num_dims = 2 then
        line.setDataArr (data.map fun r => pySlice r 0 num)
      else if num_dims = 3 then do
        let line ← line.setDataArr ((pySlice data 0 2).map fun r => pySlice r 0 num)
        let row ← pyGet data 2
        line.set3dProps (pySlice row 0 num)
      else
        pure line
    | some w =>
      if num_dims = 2 then
        line.setDataArr (data.map fun r => pySlice r (num - w) num)
      else if num_dims = 3 then do
        let line ← line.setDataArr ((pySlice data 0 2).map fun r => pySlice r (num - w) num)
        let row ← pyGet data 2
        line.set3dProps (pySlice row (num - w) num)
      else
        pure line
  line.setMarker "o"

/-- Result of a Python call that mutates handles: either a normal return,
or a raised exception together with the handle states at the moment the
exception propagates (mutations already performed are kept). -/
inductive PyResult (α : Type) where
  | ok : α → PyResult α
  | raised : PyErr → α → PyResult α
  deriving DecidableEq, Repr

/-- `for line, data in zip(lines, plotdata): line ← f line data`, zipping
with Python `zip` truncation: leftover handles are left untouched.  An
exception aborts the loop, keeping the mutations made so far. -/
def zipUpdate (f : Handle → List (List Int) → Except PyErr Handle) :
    List Handle → List (List (List Int)) → PyResult (List Handle)
  | ls, [] => .ok ls
  | [], _ :: _ => .ok []
  | l :: ls, d :: ds =>
    match f l d with
    | .error e => .raised e (l :: ls)
    | .ok l2 =>
      match zipUpdate f ls ds with
      | .ok ls2 => .ok (l2 :: ls2)
      | .raised e ls2 => .raised e (l2 :: ls2)

/-- `update_lines(num, plotdata, lines, numsamples=None)` from `animj.py`. -/
def update_lines (num : Int) (plotdata : Bundle) (lines : List Handle)
    (numsamples : Option Int) : PyResult (List Handle) :=
  zipUpdate (updateOne plotdata.numdims num numsamples) lines plotdata.data

/-- `update_lines_counter(num, plotdata, lines, text_counter, data_counter,
numsamples=None)` from `animj.py`: same loop as `update_lines`, then
`lines[len(lines)-1].set_text(text_counter % data_counter[num])`.
Python evaluates `lines[idx_text]` and its `set_text` attribute before the
argument `data_counter[num]`. -/
def update_lines_counter (num : Int) (plotdata : Bundle) (lines : List Handle)
    (text_counter : String) (data_counter : List Int)
    (numsamples : Option Int) : PyResult (List Handle) :=
  match zipUpdate (updateOne plotdata.numdims num numsamples) lines plotdata.data with
  | .raised e ls => .raised e ls
  | .ok ls =>
    let idx : Int := (ls.length : Int) - 1
    match pyGet ls idx with
    | .error e => .raised e ls
    | .ok h =>
      match h with
      | .line _ => .raised (.attributeError "set_text") ls
      | .text _ =>
        match pyGet data_counter num with
        | .error e => .raised e ls
        | .ok v =>
          .ok (ls.set (ls.length - 1) (.text (.formatted text_counter v)))

/-! ## `matlabimport.py` -/

/-- A value stored in a MATLAB record as returned by the external scipy
reader.  `nest v` models one `[[·]]` singleton-nesting level of the legacy
format: both `x[0,0]` and `x[0][0]` unwrap it to the wrapped value. -/
inductive MatValue where
  | int : Int → MatValue
  | intArr : List Int → MatValue
  | str : String → MatValue
  | record : List (String × MatValue) → MatValue
  | nest : MatValue → MatValue

/-- Field access `v['TimeStamps']` on a MATLAB struct value. -/
def MatValue.getField : MatValue → String → Except PyErr MatValue
  | .record fs, f =>
    match fs.lookup f with
    | some v => Except.ok v
    | none => Except.error (.keyError f)
  | _, f => Except.error (.typeError f)

/-- Singleton unwrapping `v[0,0]` (equivalently `v[0][0]`). -/
def MatValue.get00 : MatValue → Except PyErr MatValue
  | .nest v => Except.ok v
  | _ => Except.error PyErr.indexError

/-- numpy elementwise `v - 1` (the `unitList` reindexing). -/
def MatValue.subOne : MatValue → Except PyErr MatValue
  | .int n => Except.ok (.int (n - 1))
  | .intArr l => Except.ok (.intArr (l.map fun x => x - 1))
  | _ => Except.error (.typeError "unsupported operand")

/-- Whether `p` is a prefix of the second list. -/
def isPrefixList (p : List Char) : List Char → Bool
  | [] => p.isEmpty
  | b :: bs =>
    match p with
    | [] => true
    | a :: as => a = b && isPrefixList as bs

/-- Whether `p` occurs as a contiguous sublist. -/
def isInfixList (p : List Char) : List Char → Bool
  | [] => isPrefixList p []
  | c :: rest => isPrefixList p (c :: rest) || isInfixList p rest

/-- `'Align' in key` (Python substring containment). -/
def containsAlign (key : String) : Bool :=
  isInfixList "Align".toList key.toList

/-- The `is_analog_file` lookup table from `load_data` (lines 40–49). -/
def is_analog_file : List (String × Bool) :=
  [("LFP", true), ("LFPb", true), ("MUAe", true), ("NCS", true),
   ("CSC", true), ("hash", false), ("unit", false), ("microsaccades", false)]

/-- Outcome of processing one key of the raw record: a stored key/value
pair, or a printed `Cannot process` warning with the key dropped. -/
inductive KeyResult where
  | store : MatValue → KeyResult
  | warn : String → KeyResult

/-- The body of the `for key in matdata` loop of `load_data` (lines
55–88), for one key.  The raw entry `ev` is the stored value, or the
exception its retrieval raises (the reason the default branch is wrapped
in a bare `try/except`).  Only the default branch catches; the `Align`,
`area` and `unitList` branches propagate exceptions. -/
def processKey (filetype key : String) (ev : Except PyErr MatValue) :
    Except PyErr KeyResult :=
  if containsAlign key then
    match is_analog_file.lookup filetype with
    | none => Except.error (.keyError filetype)
    | some true => do
      let v ← ev
      let ts ← (← v.getField "TimeStamps").get00
      let ss ← (← v.getField "Samples").get00
      pure (.store (.record [("TimeStamps", ts), ("Samples", ss)]))
    | some false => do
      let v ← ev
      pure (.store v)
  else if key = "area" then do
    let v ← ev
    pure (.store v)
  else if key = "unitList" then do
    let v ← ev
    pure (.store (← v.subOne))
  else
    match ev with
    | .ok v => Except.ok (.store v)
    | .error _ => Except.ok (.warn ("Cannot process " ++ key))

/-- The full key loop of `load_data`: builds `pydata` in iteration order
and collects the printed warnings; an uncaught exception aborts. -/
def loadDataLoop (filetype : String) :
    List (String × Except PyErr MatValue) →
      Except PyErr (List (String × MatValue) × List String)
  | [] => Except.ok ([], [])
  | (key, ev) :: rest =>
    match processKey filetype key ev with
    | .error e => Except.error e
    | .ok (.store v) =>
      match loadDataLoop filetype rest with
      | .error e => Except.error e
      | .ok (out, ws) => Except.ok ((key, v) :: out, ws)
    | .ok (.warn w) =>
      match loadDataLoop filetype rest with
      | .error e => Except.error e
      | .ok (out, ws) => Except.ok (out, w :: ws)

/-- `os.path.split(p)[1]`: the part after the last path separator. -/
def pyBasename (p : String) : String :=
  ((p.toList.reverse.takeWhile fun c => c ≠ '/').reverse).asString

/-- `os.path.splitext(name)[0]` for a filename containing no separator,
per CPython: split at the last dot, unless every character before that
dot is itself a dot (leading dots do not start an extension). -/
def splitextRoot (name : String) : String :=
  let cs := name.toList
  match cs.reverse.findIdx? fun c => c = '.' with
  | none => name
  | some r =>
    let d := cs.length - 1 - r
    if (cs.take d).any fun c => c ≠ '.' then (cs.take d).asString else name

/-- The `filetype` computed in `load_data` (lines 36–37): `os.path.split`
followed by `os.path.splitext`. -/
def filetypeOf (loadfilename : String) : String :=
  splitextRoot (pyBasename loadfilename)

/-- `load_data(loadfilename, ...)` from `matlabimport.py`, applied to the
record returned by the external reader `import_data` (scipy, a black
box): derives the filetype from the filename and normalizes the record
key by key.  Returns the `pydata` mapping (in iteration order) together
with the list of `Cannot process` warnings printed. -/
def load_data (loadfilename : String)
    (matdata : List (String × Except PyErr MatValue)) :
    Except PyErr (List (String × MatValue) × List String) :=
  loadDataLoop (filetypeOf loadfilename) matdata

/-- One row of the trial table assembled by `load_trialdata`. -/
structure TrialRow where
  trial_ID : Int
  cond : Int
  RT_evnt : Int
  RT_EPP : Int
  target_dim : Int
  rf_dim : Int
  position_RF : Int
  position_out1 : Int
  position_out2 : Int
  fixbreak : Int
  CTX_events : MatValue
  NLX_events : MatValue

/-- Coercion of an unwrapped cell into a `dtype=int` array slot. -/
def MatValue.toInt : MatValue → Except PyErr Int
  | .int n => Except.ok n
  | _ => Except.error (.typeError "int")

/-- `trial[i][0][0]` stored into a `dtype=int` array. -/
def extractScalar (t : List MatValue) (i : Nat) : Except PyErr Int := do
  let v ← pyGet t (i : Int)
  let c ← v.get00
  c.toInt

/-- The body of the per-trial loop of `load_trialdata` (lines 135–165):
fields 0 and 1 are kept as-is, fields 2–11 are unwrapped scalars, accessed
in source order. -/
def extractRow (t : List MatValue) : Except PyErr TrialRow := do
  let ctx ← pyGet t 0
  let nlx ← pyGet t 1
  let tid ← extractScalar t 2
  let cnd ← extractScalar t 3
  let rte ← extractScalar t 4
  let rtp ← extractScalar t 5
  let tdim ← extractScalar t 6
  let rdim ← extractScalar t 7
  let prf ← extractScalar t 8
  let po1 ← extractScalar t 9
  let po2 ← extractScalar t 10
  let fb ← extractScalar t 11
  pure ⟨tid, cnd, rte, rtp, tdim, rdim, prf, po1, po2, fb, ctx, nlx⟩

/-- The attention-condition derivation (lines 169–172): start from an
all-zero array and apply the three mask assignments in source order. -/
def attendOf (c : Int) : Int :=
  let a : Int := 0
  let a := if c = 1 ∨ c = 4 then 1 else a
  let a := if c = 2 ∨ c = 5 then 2 else a
  if c = 3 ∨ c = 6 then 3 else a

/-- Sequential per-trial processing: the first raised exception aborts
the whole loop (the partially filled local arrays are discarded). -/
def mapExcept {α β : Type} (f : α → Except PyErr β) :
    List α → Except PyErr (List β)
  | [] => Except.ok []
  | x :: xs => do
    let y ← f x
    let ys ← mapExcept f xs
    pure (y :: ys)

/-- The trial table (`pandas.DataFrame(trialdata)`), one column per key
of the source's `trialdata` dict, in source order. -/
structure TrialTable where
  trial_ID : List Int
  attend : List Int
  cond : List Int
  RT_evnt : List Int
  RT_EPP : List Int
  target_dim : List Int
  rf_dim : List Int
  position_RF : List Int
  position_out1 : List Int
  position_out2 : List Int
  fixbreak : List Int
  CTX_events : List MatValue
  NLX_events : List MatValue

/-- Number of rows of the assembled DataFrame. -/
def TrialTable.rowCount (t : TrialTable) : Nat := t.cond.length

/-- `load_trialdata` from `matlabimport.py`, applied to the per-trial
record list `matdata['trialdata'][0]` returned by the external reader
(the file-existence assertion and the scipy call are external I/O).  For
each trial the twelve positional fields are extracted in source order;
the first failing access aborts with its exception and no table is
returned. -/
def load_trialdata (trials : List (List MatValue)) : Except PyErr TrialTable := do
  let rows ← mapExcept extractRow trials
  let cond := rows.map TrialRow.cond
  pure {
    trial_ID := rows.map TrialRow.trial_ID
    attend := cond.map attendOf
    cond := cond
    RT_evnt := rows.map TrialRow.RT_evnt
    RT_EPP := rows.map TrialRow.RT_EPP
    target_dim := rows.map TrialRow.target_dim
    rf_dim := rows.map TrialRow.rf_dim
    position_RF := rows.map TrialRow.position_RF
    position_out1 := rows.map TrialRow.position_out1
    position_out2 := rows.map TrialRow.position_out2
    fixbreak := rows.map TrialRow.fixbreak
    CTX_events := rows.map TrialRow.CTX_events
    NLX_events := rows.map TrialRow.NLX_events }

/-! ## Expected states (spec side, used only to state the theorems) -/

/-- Expected effect of one `update_lines` loop iteration on a line handle
for `num_dims ∈ {2,3}`: both slicing forms of the source, depth data only
for three dimensions, marker set to `"o"`. -/
def expectedUpd (dims : Nat) (num : Int) (ns : Option Int)
    (h : Handle) (d : List (List Int)) : Handle :=
  match h with
  | .line s =>
    let sl : List Int → List Int := fun r =>
      match ns with
      | none => pySlice r 0 num
      | some w => pySlice r (num - w) num
    .line { xdata := sl (d.getD 0 []), ydata := sl (d.getD 1 []),
            zdata := if dims = 3 then sl (d.getD 2 []) else s.zdata,
            marker := some "o" }
  | .text t => .text t

/-- Expected effect of one loop iteration for `num_dims ∉ {2,3}`: only
the marker is touched. -/
def markerOnly (h : Handle) (d : List (List Int)) : Handle :=
  match h, d with
  | .line s, _ => .line { s with marker := some "o" }
  | .text t, _ => .text t

/-- A line handle showing exactly samples `[0, f)` of its trajectory
(depth included when the bundle is three-dimensional). -/
def shownNoWin (dims f : Nat) (h : Handle) (d : List (List Int)) : Handle :=
  match h with
  | .line s =>
    .line { xdata := (d.getD 0 []).take f, ydata := (d.getD 1 []).take f,
            zdata := if dims = 3 then (d.getD 2 []).take f else s.zdata,
            marker := some "o" }
  | .text t => .text t

/-- A line handle showing exactly samples `[f-w, f)` of its trajectory
(depth included when the bundle is three-dimensional). -/
def shownWin (dims f w : Nat) (h : Handle) (d : List (List Int)) : Handle :=
  match h with
  | .line s =>
    .line { xdata := ((d.getD 0 []).take f).drop (f - w),
            ydata := ((d.getD 1 []).take f).drop (f - w),
            zdata := if dims = 3 then ((d.getD 2 []).take f).drop (f - w) else s.zdata,
            marker := some "o" }
  | .text t => .text t

/-! ## Concrete inputs used by counterexamples and witnesses -/

/-- A four-dimensional trajectory bundle (one trajectory, one sample). -/
def c1Bundle : Bundle := ⟨1, 4, 1, [[[5], [6], [7], [8]]]⟩

/-- One fresh line handle. -/
def c1Lines : List Handle := [.line ⟨[], [], [], none⟩]

/-- A two-dimensional bundle with one trajectory of three samples. -/
def c3Bundle : Bundle := ⟨1, 2, 3, [[[1, 2, 3], [4, 5, 6]]]⟩

/-- Three handles for a one-trajectory bundle: two lines and one label
(`len(handles) = N + 2 ≠ N + 1`). -/
def c3Lines : List Handle :=
  [.line ⟨[], [], [], none⟩, .line ⟨[9], [9], [], none⟩, .text (.plain "hi")]

/-- A two-dimensional bundle with one trajectory of three samples. -/
def c8Bundle : Bundle := ⟨1, 2, 3, [[[1, 2, 3], [4, 5, 6]]]⟩

/-- One fresh line handle. -/
def c8Lines : List Handle := [.line ⟨[], [], [], none⟩]

/-- A two-dimensional bundle with one trajectory of three samples. -/
def c10Bundle : Bundle := ⟨1, 2, 3, [[[1, 2, 3], [4, 5, 6]]]⟩

/-- A single line handle (no trailing text label). -/
def c10Lines : List Handle := [.line ⟨[], [], [], none⟩]

/-- Whether a stored cell is a singleton-nested scalar, the shape the
legacy trial format uses for positional fields 2–11. -/
def isNestInt : MatValue → Bool
  | .nest (.int _) => true
  | _ => false

/-- A raw trial record of the legacy format: at least 12 positional
fields, fields 2–11 being singleton-nested scalars (fields 0 and 1, the
event lists, are unconstrained). -/
def wfTrial (t : List MatValue) : Bool :=
  decide (12 ≤ t.length) &&
    (List.range 10).all fun j =>
      match t.get? (j + 2) with
      | some v => isNestInt v
      | none => false

/-- A legacy trial with condition code `c` (trial id 10, zeros elsewhere,
empty event lists). -/
def mkTrial (c : Int) : List MatValue :=
  [.intArr [], .intArr [], .nest (.int 10), .nest (.int c), .nest (.int 0),
   .nest (.int 0), .nest (.int 0), .nest (.int 0), .nest (.int 0),
   .nest (.int 0), .nest (.int 0), .nest (.int 0)]

/-- Seven trials with condition codes 1–7. -/
def c4Trials : List (List MatValue) :=
  [mkTrial 1, mkTrial 2, mkTrial 3, mkTrial 4, mkTrial 5, mkTrial 6,
   mkTrial 7]

/-- The table `load_trialdata` produces from `c4Trials`. -/
def c4Table : TrialTable :=
  { trial_ID := [10, 10, 10, 10, 10, 10, 10]
    attend := [1, 2, 3, 1, 2, 3, 0]
    cond := [1, 2, 3, 4, 5, 6, 7]
    RT_evnt := [0, 0, 0, 0, 0, 0, 0]
    RT_EPP := [0, 0, 0, 0, 0, 0, 0]
    target_dim := [0, 0, 0, 0, 0, 0, 0]
    rf_dim := [0, 0, 0, 0, 0, 0, 0]
    position_RF := [0, 0, 0, 0, 0, 0, 0]
    position_out1 := [0, 0, 0, 0, 0, 0, 0]
    position_out2 := [0, 0, 0, 0, 0, 0, 0]
    fixbreak := [0, 0, 0, 0, 0, 0, 0]
    CTX_events := [.intArr [], .intArr [], .intArr [], .intArr [],
      .intArr [], .intArr [], .intArr []]
    NLX_events := [.intArr [], .intArr [], .intArr [], .intArr [],
      .intArr [], .intArr [], .intArr []] }

/-- Two well-formed legacy trials. -/
def c6Trials : List (List MatValue) := [mkTrial 1, mkTrial 5]

/-- A malformed record: its only trial has 11 positional fields. -/
def c6Bad : List (List MatValue) :=
  [[.intArr [], .intArr [], .nest (.int 1), .nest (.int 1), .nest (.int 1),
    .nest (.int 1), .nest (.int 1), .nest (.int 1), .nest (.int 1),
    .nest (.int 1), .nest (.int 1)]]

/-! ## Facts about the Python primitives -/

theorem pyGet_natCast {α : Type} (l : List α) (i : Nat) :
    pyGet l (i : Int) =
      match l.get? i with
      | some a => Except.ok a
      | none => Except.error PyErr.indexError := by
  simp only [pyGet, if_neg (show ¬((i : Int) < 0) by omega), Int.toNat_natCast]
  rw [if_pos (by omega)]

theorem pyGet_ok_lt {α : Type} {l : List α} {i : Nat} {a : α}
    (h : pyGet l (i : Int) = Except.ok a) : i < l.length ∧ l.get? i = some a := by
  rw [pyGet_natCast] at h
  cases hg : l.get? i with
  | none => rw [hg] at h; cases h
  | some b =>
    rw [hg] at h
    cases h
    refine ⟨?_, rfl⟩
    by_contra hlt
    rw [List.get?_eq_none.mpr (Nat.le_of_not_lt hlt)] at hg
    cases hg

theorem pyGet_big {α : Type} {l : List α} {i : Int}
    (h : (l.length : Int) ≤ i) : pyGet l i = Except.error PyErr.indexError := by
  simp only [pyGet, if_neg (show ¬(i < 0) by omega)]
  rw [if_pos (by omega), List.get?_eq_none.mpr (by omega)]

theorem pySlice_zero_left {α : Type} (l : List α) (n : Nat) :
    pySlice l 0 (n : Int) = l.take n := by
  simp only [pySlice, pyIdxClamp]
  rw [if_neg (by omega), if_neg (by omega)]
  simp only [Int.toNat_natCast, Int.toNat_zero, Nat.zero_min, List.drop_zero]
  rw [List.take_eq_take]
  omega

theorem pySlice_window {α : Type} (l : List α) (a b : Nat)
    (hab : a ≤ b) (hb : b ≤ l.length) :
    pySlice l (a : Int) (b : Int) = (l.take b).drop a := by
  simp only [pySlice, pyIdxClamp]
  rw [if_neg (by omega), if_neg (by omega)]
  simp only [Int.toNat_natCast]
  rw [min_eq_left hb, min_eq_left (le_trans hab hb)]

/-! ## Facts about the `update_lines` loop -/

theorem updateOne_line_eq (dims : Nat) (num : Int) (ns : Option Int)
    (s : LineState) (d : List (List Int)) (hd : d.length = dims)
    (hdims : dims = 2 ∨ dims = 3) :
    updateOne dims num ns (.line s) d =
      Except.ok (expectedUpd dims num ns (.line s) d) := by
  rcases hdims with h | h
  · subst h
    obtain ⟨r0, r1, rfl⟩ := List.length_eq_two.mp hd
    cases ns <;>
      simp [updateOne, expectedUpd, Handle.setDataArr, Handle.setMarker,
        bind, Except.bind]
  · subst h
    obtain ⟨r0, r1, r2, rfl⟩ := List.length_eq_three.mp hd
    have hsl : pySlice [r0, r1, r2] 0 2 = [r0, r1] := rfl
    have hget : pyGet [r0, r1, r2] 2 = Except.ok r2 := rfl
    cases ns <;>
      simp [updateOne, expectedUpd, Handle.setDataArr, Handle.setMarker,
        Handle.set3dProps, hsl, hget, bind, Except.bind]

theorem updateOne_line_other (dims : Nat) (num : Int) (ns : Option Int)
    (s : LineState) (d : List (List Int)) (h2 : dims ≠ 2) (h3 : dims ≠ 3) :
    updateOne dims num ns (.line s) d =
      Except.ok (.line { s with marker := some "o" }) := by
  cases ns <;> simp [updateOne, h2, h3, Handle.setMarker]

theorem zipUpdate_ok_of (f : Handle → List (List Int) → Except PyErr Handle)
    (g : Handle → List (List Int) → Handle) (ls : List Handle)
    (ds : List (List (List Int)))
    (h : ∀ l ∈ ls, ∀ d ∈ ds, f l d = Except.ok (g l d)) :
    zipUpdate f ls ds = .ok (List.zipWith g ls ds ++ ls.drop ds.length) := by
  induction ls generalizing ds with
  | nil => cases ds <;> simp [zipUpdate]
  | cons l tl ih =>
    cases ds with
    | nil => simp [zipUpdate]
    | cons d ds =>
      have hf : f l d = Except.ok (g l d) := h l (by simp) d (by simp)
      have ihh := ih ds fun a ha b hb => h a (by simp [ha]) b (by simp [hb])
      simp [zipUpdate, hf, ihh]

theorem zipUpdate_append (f : Handle → List (List Int) → Except PyErr Handle)
    (g : Handle → List (List Int) → Handle) (ls rest : List Handle)
    (ds : List (List (List Int))) (hlen : ds.length ≤ ls.length)
    (h : ∀ l ∈ ls, ∀ d ∈ ds, f l d = Except.ok (g l d)) :
    zipUpdate f (ls ++ rest) ds =
      .ok ((List.zipWith g ls ds ++ ls.drop ds.length) ++ rest) := by
  induction ds generalizing ls with
  | nil => cases ls <;> cases rest <;> simp [zipUpdate]
  | cons d ds ih =>
    cases ls with
    | nil => simp at hlen
    | cons l tl =>
      have hf : f l d = Except.ok (g l d) := h l (by simp) d (by simp)
      have ihh := ih tl (by simpa using hlen)
        (fun a ha b hb => h a (by simp [ha]) b (by simp [hb]))
      simp [zipUpdate, hf, ihh]

theorem expectedUpd_none_eq (dims : Nat) (f : Nat) (s : LineState)
    (d : List (List Int)) :
    expectedUpd dims (f : Int) none (.line s) d = shownNoWin dims f (.line s) d := by
  simp [expectedUpd, shownNoWin, pySlice_zero_left]

theorem expectedUpd_some_eq (dims f w : Nat) (s : LineState)
    (d : List (List Int)) (hw : w ≤ f) (hlen : d.length = dims)
    (hdims : dims = 2 ∨ dims = 3) (hrows : ∀ r ∈ d, f ≤ r.length) :
    expectedUpd dims (f : Int) (some (w : Int)) (.line s) d =
      shownWin dims f w (.line s) d := by
  have hc : (f : Int) - (w : Int) = ((f - w : Nat) : Int) := by omega
  rcases hdims with h | h
  · subst h
    obtain ⟨r0, r1, rfl⟩ := List.length_eq_two.mp hlen
    simp only [expectedUpd, shownWin, hc, List.getD_cons_zero,
      List.getD_cons_succ]
    rw [pySlice_window r0 (f - w) f (by omega) (hrows r0 (by simp)),
      pySlice_window r1 (f - w) f (by omega) (hrows r1 (by simp))]
    simp
  · subst h
    obtain ⟨r0, r1, r2, rfl⟩ := List.length_eq_three.mp hlen
    simp only [expectedUpd, shownWin, hc, List.getD_cons_zero,
      List.getD_cons_succ]
    rw [pySlice_window r0 (f - w) f (by omega) (hrows r0 (by simp)),
      pySlice_window r1 (f - w) f (by omega) (hrows r1 (by simp)),
      pySlice_window r2 (f - w) f (by omega) (hrows r2 (by simp))]

/-! ## Claim C1 -/

/-- Claim C1, counterexample: on a four-dimensional bundle `update_lines`
does not fail with a dimensionality error — it returns normally, and it
does mutate the surface handle (the marker is set), contradicting the
claimed absence of any mutation. -/
theorem C1_counterexample :
    update_lines 1 c1Bundle c1Lines none =
      PyResult.ok [Handle.line ⟨[], [], [], some "o"⟩]
    ∧ (∀ e ls, update_lines 1 c1Bundle c1Lines none ≠ PyResult.raised e ls)
    ∧ update_lines 1 c1Bundle c1Lines none ≠ PyResult.ok c1Lines := by
  refine ⟨rfl, ?_, by decide⟩
  intro e ls h
  have h2 : PyResult.ok [Handle.line ⟨[], [], [], some "o"⟩] =
      PyResult.raised e ls := h
  cases h2

/-- Claim C1 (amended): for every bundle whose dimension count is neither
2 nor 3, `update_lines` raises no error at all: it performs no data and
no depth update, but it still sets the marker of every line handle paired
with a trajectory, and returns the handle list. -/
theorem C1_amended_no_dim_error (num : Int) (b : Bundle) (lines : List Handle)
    (ns : Option Int) (h2 : b.numdims ≠ 2) (h3 : b.numdims ≠ 3)
    (hline : ∀ l ∈ lines, l.isLine = true) :
    update_lines num b lines ns =
      .ok (List.zipWith markerOnly lines b.data ++ lines.drop b.data.length) := by
  unfold update_lines
  apply zipUpdate_ok_of
  intro l hl d _
  cases l with
  | text t => exact absurd (hline _ hl) (by simp [Handle.isLine])
  | line s =>
    rw [updateOne_line_other b.numdims num ns s d h2 h3]
    rfl

/-- Claim C1, witness: the amended theorem applied to the concrete
four-dimensional bundle. -/
theorem C1_witness :
    c1Bundle.numdims ≠ 2 ∧ c1Bundle.numdims ≠ 3 ∧
      update_lines 1 c1Bundle c1Lines none =
        .ok (List.zipWith markerOnly c1Lines c1Bundle.data ++
          c1Lines.drop c1Bundle.data.length) :=
  ⟨by decide, by decide,
    C1_amended_no_dim_error 1 c1Bundle c1Lines none (by decide) (by decide)
      (by decide)⟩

/-! ## Claim C8 -/

/-- Claim C8: for a well-formed bundle with `D ∈ {2,3}` and a valid frame
index `f ≤ T`, `update_lines` with no window leaves each line handle
holding exactly samples `[0, f)` of its trajectory, and with a fixed
window `w ≤ f` exactly samples `[f-w, f)`; for `D = 3` the first two
dimensions go through the 2-D data update and the third through the
separate depth update over the same sample range. -/
theorem C8_window_semantics (b : Bundle) (lines : List Handle) (f : Nat)
    (hwf : b.wf) (hdims : b.numdims = 2 ∨ b.numdims = 3)
    (hlen : lines.length = b.data.length)
    (hline : ∀ l ∈ lines, l.isLine = true) (hf : f ≤ b.numsamples) :
    update_lines (f : Int) b lines none =
      .ok (List.zipWith (shownNoWin b.numdims f) lines b.data)
    ∧ ∀ w : Nat, w ≤ f →
        update_lines (f : Int) b lines (some (w : Int)) =
          .ok (List.zipWith (shownWin b.numdims f w) lines b.data) := by
  constructor
  · unfold update_lines
    rw [zipUpdate_ok_of _ (shownNoWin b.numdims f) lines b.data ?_]
    · rw [← hlen, List.drop_length, List.append_nil]
    · intro l hl d hd
      cases l with
      | text t => exact absurd (hline _ hl) (by simp [Handle.isLine])
      | line s =>
        rw [updateOne_line_eq b.numdims (f : Int) none s d (hwf.2 d hd).1 hdims,
          expectedUpd_none_eq]
  · intro w hw
    unfold update_lines
    rw [zipUpdate_ok_of _ (shownWin b.numdims f w) lines b.data ?_]
    · rw [← hlen, List.drop_length, List.append_nil]
    · intro l hl d hd
      cases l with
      | text t => exact absurd (hline _ hl) (by simp [Handle.isLine])
      | line s =>
        rw [updateOne_line_eq b.numdims (f : Int) (some (w : Int)) s d
            (hwf.2 d hd).1 hdims,
          expectedUpd_some_eq b.numdims f w s d hw (hwf.2 d hd).1 hdims
            (fun r hr => le_trans hf (le_of_eq ((hwf.2 d hd).2 r hr).symm))]

/-- Claim C8, witness: one two-dimensional trajectory of three samples,
frame index 2, window 1. -/
theorem C8_witness :
    c8Bundle.wf ∧
      update_lines 2 c8Bundle c8Lines none =
        .ok [Handle.line ⟨[1, 2], [4, 5], [], some "o"⟩] ∧
      update_lines 2 c8Bundle c8Lines (some 1) =
        .ok [Handle.line ⟨[2], [5], [], some "o"⟩] := by
  have hwf : c8Bundle.wf := by decide
  have h := C8_window_semantics c8Bundle c8Lines 2 hwf (Or.inl rfl) rfl
    (by decide) (by decide)
  exact ⟨hwf, h.1, h.2 1 (by decide)⟩

/-! ## Facts about `update_lines_counter` -/

theorem set_last_concat {α : Type} (as : List α) (x y : α) :
    (as ++ [x]).set as.length y = as ++ [y] := by
  induction as with
  | nil => rfl
  | cons a t ih => simp [List.set, ih]

theorem pyGet_concat_last {α : Type} (as : List α) (x : α) :
    pyGet (as ++ [x]) (((as ++ [x]).length : Int) - 1) = Except.ok x := by
  have h : (((as ++ [x]).length : Int) - 1) = ((as.length : Nat) : Int) := by
    simp only [List.length_append, List.length_singleton]
    push_cast
    ring
  rw [h, pyGet_natCast, List.get?_concat_length]

theorem update_lines_counter_eval (num : Int) (b : Bundle)
    (lines : List Handle) (tc : String) (dc : List Int) (ns : Option Int)
    (as2 : List Handle) (t : TextContent)
    (hz : zipUpdate (updateOne b.numdims num ns) lines b.data =
      .ok (as2 ++ [.text t])) :
    update_lines_counter num b lines tc dc ns =
      match pyGet dc num with
      | .error e => .raised e (as2 ++ [.text t])
      | .ok v => .ok (as2 ++ [.text (.formatted tc v)]) := by
  simp only [update_lines_counter, hz]
  rw [pyGet_concat_last as2 (Handle.text t)]
  cases hdc : pyGet dc num with
  | error e => rfl
  | ok v =>
    have hset : (as2 ++ [Handle.text t]).length - 1 = as2.length := by
      simp
    simp only [hset, set_last_concat]

/-! ## Claim C3 -/

/-- Claim C3, counterexample: with `N = 1` trajectory and three handles
(`len(handles) = N + 2 ≠ N + 1`, the last being a text label) the call
does not fail with a bounds/index error — it succeeds, updating only the
first `N` handles and setting the label text. -/
theorem C3_counterexample :
    c3Lines.length ≠ c3Bundle.numlines + 1
    ∧ update_lines_counter 1 c3Bundle c3Lines "fmt" [41, 42] none =
        PyResult.ok [Handle.line ⟨[1], [4], [], some "o"⟩,
          Handle.line ⟨[9], [9], [], none⟩, Handle.text (.formatted "fmt" 42)]
    ∧ ∀ e ls, update_lines_counter 1 c3Bundle c3Lines "fmt" [41, 42] none ≠
        PyResult.raised e ls := by
  refine ⟨by decide, rfl, ?_⟩
  intro e ls h
  have h2 : PyResult.ok [Handle.line ⟨[1], [4], [], some "o"⟩,
      Handle.line ⟨[9], [9], [], none⟩, Handle.text (.formatted "fmt" 42)] =
      PyResult.raised e ls := h
  cases h2

/-- Claim C3 (amended): no `len(handles) == N+1` check is enforced.  For a
well-formed bundle with `D ∈ {2,3}`, a handle list consisting of line
handles followed by one trailing text label, and at least as many line
handles as trajectories, the call succeeds: the line handles paired with
trajectories are updated, surplus line handles are left untouched, and
the label text is set to `counter_template` formatted with
`counter_values[frame_index]`.  An empty handle list (and only that
shortfall) yields a bounds/index error. -/
theorem C3_amended_counter (b : Bundle) (ls : List Handle) (t : TextContent)
    (tc : String) (dc : List Int) (f : Nat) (v : Int)
    (hwf : b.wf) (hdims : b.numdims = 2 ∨ b.numdims = 3)
    (hlen : b.data.length ≤ ls.length) (hline : ∀ l ∈ ls, l.isLine = true)
    (hv : dc.get? f = some v) :
    update_lines_counter (f : Int) b (ls ++ [.text t]) tc dc none =
      .ok ((List.zipWith (shownNoWin b.numdims f) ls b.data ++
        ls.drop b.data.length) ++ [.text (.formatted tc v)])
    ∧ ∀ (num : Int) (ns : Option Int),
        update_lines_counter num b [] tc dc ns = .raised PyErr.indexError [] := by
  constructor
  · have hz := zipUpdate_append (updateOne b.numdims (f : Int) none)
      (shownNoWin b.numdims f) ls [Handle.text t] b.data hlen ?_
    · rw [update_lines_counter_eval (f : Int) b _ tc dc none _ t hz,
        pyGet_natCast, hv]
    · intro l hl d hd
      cases l with
      | text tx => exact absurd (hline _ hl) (by simp [Handle.isLine])
      | line s =>
        rw [updateOne_line_eq b.numdims (f : Int) none s d (hwf.2 d hd).1 hdims,
          expectedUpd_none_eq]
  · intro num ns
    unfold update_lines_counter
    rcases hd : b.data with _ | ⟨d, ds⟩ <;> rfl

/-- Claim C3, witness: the amended theorem at a concrete call with
`len(handles) = N + 1`, and at the empty handle list. -/
theorem C3_witness :
    update_lines_counter 1 c3Bundle
        [Handle.line ⟨[], [], [], none⟩, Handle.text (.plain "hi")]
        "fmt" [41, 42] none =
      PyResult.ok [Handle.line ⟨[1], [4], [], some "o"⟩,
        Handle.text (.formatted "fmt" 42)]
    ∧ update_lines_counter 1 c3Bundle [] "fmt" [41, 42] none =
        PyResult.raised PyErr.indexError [] := by
  have h := C3_amended_counter c3Bundle [Handle.line ⟨[], [], [], none⟩]
    (.plain "hi") "fmt" [41, 42] 1 42 (by decide) (Or.inl rfl) (by decide)
    (by decide) (by decide)
  exact ⟨h.1, h.2 1 none⟩

/-! ## Claim C10 -/

/-- Claim C10, counterexample: with `D = 2`, one (line) handle, and a
frame index out of range for the counter values, the raised exception is
an attribute error on `set_text` (raised before the counter lookup is
evaluated), not an index error as claimed. -/
theorem C10_counterexample :
    update_lines_counter 2 c10Bundle c10Lines "t" [] none =
      PyResult.raised (PyErr.attributeError "set_text")
        [Handle.line ⟨[1, 2], [4, 5], [], some "o"⟩]
    ∧ ∀ ls, update_lines_counter 2 c10Bundle c10Lines "t" [] none ≠
        PyResult.raised PyErr.indexError ls := by
  refine ⟨rfl, ?_⟩
  intro ls h
  have h2 : PyResult.raised (PyErr.attributeError "set_text")
      [Handle.line ⟨[1, 2], [4, 5], [], some "o"⟩] =
      PyResult.raised PyErr.indexError ls := h
  simp at h2

/-- Claim C10 (amended: the handle list must end in the text label): for a
well-formed bundle with `D ∈ {2,3}`, line handles followed by one text
label, and a frame index `num ≥ len(counter_values)`, the call raises an
index error only after every line handle paired with a trajectory has
been updated with the frame's data and had its marker set; these
mutations are visible in the propagated state, not rolled back. -/
theorem C10_amended_late_index_error (b : Bundle) (ls : List Handle)
    (t : TextContent) (tc : String) (dc : List Int) (num : Int)
    (ns : Option Int) (hwf : b.wf) (hdims : b.numdims = 2 ∨ b.numdims = 3)
    (hlen : b.data.length ≤ ls.length) (hline : ∀ l ∈ ls, l.isLine = true)
    (hnum : (dc.length : Int) ≤ num) :
    update_lines_counter num b (ls ++ [.text t]) tc dc ns =
      .raised PyErr.indexError
        ((List.zipWith (expectedUpd b.numdims num ns) ls b.data ++
          ls.drop b.data.length) ++ [.text t]) := by
  have hz := zipUpdate_append (updateOne b.numdims num ns)
    (expectedUpd b.numdims num ns) ls [Handle.text t] b.data hlen ?_
  · rw [update_lines_counter_eval num b _ tc dc ns _ t hz, pyGet_big hnum]
  · intro l hl d hd
    cases l with
    | text tx => exact absurd (hline _ hl) (by simp [Handle.isLine])
    | line s =>
      exact updateOne_line_eq b.numdims num ns s d (hwf.2 d hd).1 hdims

/-- Claim C10, witness: the amended theorem at a concrete call — empty
counter list, frame index 2, one line handle plus the label; the line
mutation is visible in the raised state. -/
theorem C10_witness :
    update_lines_counter 2 c10Bundle
        [Handle.line ⟨[], [], [], none⟩, Handle.text (.plain "x")]
        "t" [] none =
      PyResult.raised PyErr.indexError
        [Handle.line ⟨[1, 2], [4, 5], [], some "o"⟩,
          Handle.text (.plain "x")] := by
  have h := C10_amended_late_index_error c10Bundle
    [Handle.line ⟨[], [], [], none⟩] (.plain "x") "t" [] 2 none (by decide)
    (Or.inl rfl) (by decide) (by decide) (by decide)
  exact h

/-! ## Facts about the `load_data` key loop -/

theorem except_bind_ok {β γ : Type} {m : Except PyErr β} {f : β → Except PyErr γ}
    {r : γ} (h : m >>= f = Except.ok r) : ∃ b, m = Except.ok b ∧ f b = Except.ok r := by
  cases m with
  | error e => simp [bind, Except.bind] at h
  | ok b => exact ⟨b, rfl, by simpa [bind, Except.bind] using h⟩

theorem lookup_none_of_forall {β : Type} (k : String) (out : List (String × β))
    (h : ∀ v, (k, v) ∉ out) : out.lookup k = none := by
  induction out with
  | nil => rfl
  | cons p t ih =>
    obtain ⟨a, b⟩ := p
    have hka : k ≠ a := fun he => h b (by simp [he])
    simp only [List.lookup, beq_eq_false_iff_ne.mpr hka]
    exact ih fun v hv => h v (List.mem_cons_of_mem _ hv)

theorem loadDataLoop_mem_keys (ft : String)
    (raw : List (String × Except PyErr MatValue))
    (out : List (String × MatValue)) (ws : List String)
    (hok : loadDataLoop ft raw = .ok (out, ws)) :
    ∀ k v, (k, v) ∈ out → k ∈ raw.map Prod.fst := by
  induction raw generalizing out ws with
  | nil =>
    simp only [loadDataLoop, Except.ok.injEq, Prod.mk.injEq] at hok
    rw [← hok.1]
    simp
  | cons p rest ih =>
    obtain ⟨key, ev⟩ := p
    simp only [loadDataLoop] at hok
    cases hpk : processKey ft key ev with
    | error e => rw [hpk] at hok; cases hok
    | ok kr =>
      rw [hpk] at hok
      cases kr with
      | store v0 =>
        cases hrec : loadDataLoop ft rest with
        | error e => rw [hrec] at hok; cases hok
        | ok p2 =>
          obtain ⟨out1, ws1⟩ := p2
          rw [hrec] at hok
          simp only [Except.ok.injEq, Prod.mk.injEq] at hok
          intro k v hm
          rw [← hok.1] at hm
          rcases List.mem_cons.mp hm with he | ht
          · cases he; simp
          · exact List.mem_cons_of_mem _ (ih out1 ws1 hrec k v ht)
      | warn w0 =>
        cases hrec : loadDataLoop ft rest with
        | error e => rw [hrec] at hok; cases hok
        | ok p2 =>
          obtain ⟨out1, ws1⟩ := p2
          rw [hrec] at hok
          simp only [Except.ok.injEq, Prod.mk.injEq] at hok
          intro k v hm
          rw [← hok.1] at hm
          exact List.mem_cons_of_mem _ (ih out1 ws1 hrec k v hm)

theorem loadDataLoop_lookup_store (ft : String)
    (raw : List (String × Except PyErr MatValue))
    (out : List (String × MatValue)) (ws : List String)
    (k : String) (ev : Except PyErr MatValue) (v : MatValue)
    (hnd : (raw.map Prod.fst).Nodup) (hmem : (k, ev) ∈ raw)
    (hok : loadDataLoop ft raw = .ok (out, ws))
    (hpk : processKey ft k ev = .ok (.store v)) :
    out.lookup k = some v := by
  induction raw generalizing out ws with
  | nil => cases hmem
  | cons p rest ih =>
    obtain ⟨key, ev0⟩ := p
    simp only [loadDataLoop] at hok
    rcases List.mem_cons.mp hmem with he | ht
    · cases he
      rw [hpk] at hok
      cases hrec : loadDataLoop ft rest with
      | error e => rw [hrec] at hok; cases hok
      | ok p2 =>
        obtain ⟨out1, ws1⟩ := p2
        rw [hrec] at hok
        simp only [Except.ok.injEq, Prod.mk.injEq] at hok
        rw [← hok.1]
        simp [List.lookup]
    · have hkey : key ∉ rest.map Prod.fst := (List.nodup_cons.mp hnd).1
      have hk : k ∈ rest.map Prod.fst := List.mem_map.mpr ⟨(k, ev), ht, rfl⟩
      have hne : k ≠ key := fun he => hkey (he ▸ hk)
      have hnd2 : (rest.map Prod.fst).Nodup := (List.nodup_cons.mp hnd).2
      cases hpk0 : processKey ft key ev0 with
      | error e => rw [hpk0] at hok; cases hok
      | ok kr =>
        rw [hpk0] at hok
        cases kr with
        | store v0 =>
          cases hrec : loadDataLoop ft rest with
          | error e => rw [hrec] at hok; cases hok
          | ok p2 =>
            obtain ⟨out1, ws1⟩ := p2
            rw [hrec] at hok
            simp only [Except.ok.injEq, Prod.mk.injEq] at hok
            rw [← hok.1]
            simp only [List.lookup, beq_eq_false_iff_ne.mpr hne]
            exact ih out1 ws1 hnd2 ht hrec
        | warn w0 =>
          cases hrec : loadDataLoop ft rest with
          | error e => rw [hrec] at hok; cases hok
          | ok p2 =>
            obtain ⟨out1, ws1⟩ := p2
            rw [hrec] at hok
            simp only [Except.ok.injEq, Prod.mk.injEq] at hok
            rw [← hok.1]
            exact ih out1 ws1 hnd2 ht hrec

theorem loadDataLoop_lookup_warn (ft : String)
    (raw : List (String × Except PyErr MatValue))
    (out : List (String × MatValue)) (ws : List String)
    (k : String) (ev : Except PyErr MatValue) (w : String)
    (hnd : (raw.map Prod.fst).Nodup) (hmem : (k, ev) ∈ raw)
    (hok : loadDataLoop ft raw = .ok (out, ws))
    (hpk : processKey ft k ev = .ok (.warn w)) :
    out.lookup k = none ∧ w ∈ ws := by
  induction raw generalizing out ws with
  | nil => cases hmem
  | cons p rest ih =>
    obtain ⟨key, ev0⟩ := p
    simp only [loadDataLoop] at hok
    rcases List.mem_cons.mp hmem with he | ht
    · cases he
      rw [hpk] at hok
      cases hrec : loadDataLoop ft rest with
      | error e => rw [hrec] at hok; cases hok
      | ok p2 =>
        obtain ⟨out1, ws1⟩ := p2
        rw [hrec] at hok
        simp only [Except.ok.injEq, Prod.mk.injEq] at hok
        rw [← hok.1, ← hok.2]
        constructor
        · refine lookup_none_of_forall k out1 fun v hv => ?_
          exact (List.nodup_cons.mp hnd).1
            (loadDataLoop_mem_keys ft rest out1 ws1 hrec k v hv)
        · simp
    · have hkey : key ∉ rest.map Prod.fst := (List.nodup_cons.mp hnd).1
      have hk : k ∈ rest.map Prod.fst := List.mem_map.mpr ⟨(k, ev), ht, rfl⟩
      have hne : k ≠ key := fun he => hkey (he ▸ hk)
      have hnd2 : (rest.map Prod.fst).Nodup := (List.nodup_cons.mp hnd).2
      cases hpk0 : processKey ft key ev0 with
      | error e => rw [hpk0] at hok; cases hok
      | ok kr =>
        rw [hpk0] at hok
        cases kr with
        | store v0 =>
          cases hrec : loadDataLoop ft rest with
          | error e => rw [hrec] at hok; cases hok
          | ok p2 =>
            obtain ⟨out1, ws1⟩ := p2
            rw [hrec] at hok
            simp only [Except.ok.injEq, Prod.mk.injEq] at hok
            rw [← hok.1, ← hok.2]
            have hih := ih out1 ws1 hnd2 ht hrec
            refine ⟨?_, hih.2⟩
            simp only [List.lookup, beq_eq_false_iff_ne.mpr hne]
            exact hih.1
        | warn w0 =>
          cases hrec : loadDataLoop ft rest with
          | error e => rw [hrec] at hok; cases hok
          | ok p2 =>
            obtain ⟨out1, ws1⟩ := p2
            rw [hrec] at hok
            simp only [Except.ok.injEq, Prod.mk.injEq] at hok
            rw [← hok.1, ← hok.2]
            have hih := ih out1 ws1 hnd2 ht hrec
            exact ⟨hih.1, List.mem_cons_of_mem _ hih.2⟩

theorem loadDataLoop_error_of_mem (ft : String)
    (raw : List (String × Except PyErr MatValue))
    (k : String) (ev : Except PyErr MatValue) (e : PyErr)
    (hmem : (k, ev) ∈ raw) (hpk : processKey ft k ev = .error e) :
    ∃ e2, loadDataLoop ft raw = .error e2 := by
  induction raw with
  | nil => cases hmem
  | cons p rest ih =>
    obtain ⟨key, ev0⟩ := p
    rcases List.mem_cons.mp hmem with he | ht
    · cases he
      exact ⟨e, by simp only [loadDataLoop]; rw [hpk]⟩
    · cases hpk0 : processKey ft key ev0 with
      | error e0 => exact ⟨e0, by simp only [loadDataLoop]; rw [hpk0]⟩
      | ok kr =>
        obtain ⟨e2, hrec⟩ := ih ht
        cases kr with
        | store v0 => exact ⟨e2, by simp only [loadDataLoop]; rw [hpk0, hrec]⟩
        | warn w0 => exact ⟨e2, by simp only [loadDataLoop]; rw [hpk0, hrec]⟩

/-! ## Facts about `processKey` and the analog lookup table -/

theorem processKey_align_analog {ft k : String} {v ts ss : MatValue}
    (hc : containsAlign k = true) (hl : is_analog_file.lookup ft = some true)
    (hts : v.getField "TimeStamps" = .ok (.nest ts))
    (hss : v.getField "Samples" = .ok (.nest ss)) :
    processKey ft k (.ok v) =
      .ok (.store (.record [("TimeStamps", ts), ("Samples", ss)])) := by
  simp [processKey, hc, hl, hts, hss, MatValue.get00, bind, Except.bind,
    pure, Except.pure]

theorem processKey_align_nonanalog {ft k : String} {v : MatValue}
    (hc : containsAlign k = true) (hl : is_analog_file.lookup ft = some false) :
    processKey ft k (.ok v) = .ok (.store v) := by
  simp [processKey, hc, hl, bind, Except.bind, pure, Except.pure]

theorem processKey_align_unknown {ft k : String} (ev : Except PyErr MatValue)
    (hc : containsAlign k = true) (hl : is_analog_file.lookup ft = none) :
    processKey ft k ev = .error (.keyError ft) := by
  simp [processKey, hc, hl]

theorem processKey_area {ft : String} {v : MatValue} :
    processKey ft "area" (.ok v) = .ok (.store v) := by
  have hc : containsAlign "area" = false := by decide
  simp [processKey, hc, bind, Except.bind, pure, Except.pure]

theorem processKey_unitList {ft : String} {l : List Int} :
    processKey ft "unitList" (.ok (.intArr l)) =
      .ok (.store (.intArr (l.map fun x => x - 1))) := by
  have hc : containsAlign "unitList" = false := by decide
  simp [processKey, hc, MatValue.subOne, bind, Except.bind, pure, Except.pure]

theorem processKey_default_warn (ft : String) {k : String} (e : PyErr)
    (hc : containsAlign k = false) (h1 : k ≠ "area") (h2 : k ≠ "unitList") :
    processKey ft k (.error e) = .ok (.warn ("Cannot process " ++ k)) := by
  simp [processKey, hc, h1, h2]

theorem processKey_warn_shape {ft k : String} {ev : Except PyErr MatValue}
    {w : String} (h : processKey ft k ev = .ok (.warn w)) :
    w = "Cannot process " ++ k ∧ ∃ e, ev = Except.error e := by
  unfold processKey at h
  by_cases hc : containsAlign k
  · rw [if_pos hc] at h
    rcases hl : is_analog_file.lookup ft with _ | b
    · rw [hl] at h; cases h
    · rw [hl] at h
      cases b
      · obtain ⟨v, hv, h⟩ := except_bind_ok h
        simp [pure, Except.pure] at h
      · obtain ⟨v, hv, h⟩ := except_bind_ok h
        obtain ⟨dl, hdl, h⟩ := except_bind_ok h
        obtain ⟨ts, hts, h⟩ := except_bind_ok h
        obtain ⟨dl2, hdl2, h⟩ := except_bind_ok h
        obtain ⟨ss, hss, h⟩ := except_bind_ok h
        simp [pure, Except.pure] at h
  · rw [if_neg hc] at h
    by_cases h1 : k = "area"
    · rw [if_pos h1] at h
      obtain ⟨v, hv, h⟩ := except_bind_ok h
      simp [pure, Except.pure] at h
    · rw [if_neg h1] at h
      by_cases h2 : k = "unitList"
      · rw [if_pos h2] at h
        obtain ⟨v, hv, h⟩ := except_bind_ok h
        obtain ⟨u, hu, h⟩ := except_bind_ok h
        simp [pure, Except.pure] at h
      · rw [if_neg h2] at h
        cases ev with
        | ok v => simp at h
        | error e =>
          simp only [Except.ok.injEq, KeyResult.warn.injEq] at h
          exact ⟨h.symm, e, rfl⟩

theorem lookup_analog_true {s : String}
    (h : s ∈ ["LFP", "LFPb", "MUAe", "NCS", "CSC"]) :
    is_analog_file.lookup s = some true := by
  fin_cases h <;> rfl

theorem lookup_analog_false {s : String}
    (h : s ∈ ["hash", "unit", "microsaccades"]) :
    is_analog_file.lookup s = some false := by
  fin_cases h <;> rfl

theorem lookup_analog_none {s : String}
    (h : s ∉ ["LFP", "LFPb", "MUAe", "NCS", "CSC", "hash", "unit",
      "microsaccades"]) :
    is_analog_file.lookup s = none := by
  simp only [List.mem_cons, List.not_mem_nil, or_false, not_or] at h
  obtain ⟨h1, h2, h3, h4, h5, h6, h7, h8⟩ := h
  simp [is_analog_file, List.lookup, beq_eq_false_iff_ne.mpr h1,
    beq_eq_false_iff_ne.mpr h2, beq_eq_false_iff_ne.mpr h3,
    beq_eq_false_iff_ne.mpr h4, beq_eq_false_iff_ne.mpr h5,
    beq_eq_false_iff_ne.mpr h6, beq_eq_false_iff_ne.mpr h7,
    beq_eq_false_iff_ne.mpr h8]

/-! ## Claim C2 -/

/-- Claim C2: when the filetype category is analog (LFP, LFPb, MUAe, NCS,
CSC), `load_data` maps every key containing `Align` to the nested entry
`{TimeStamps: raw[key]['TimeStamps'][0,0], Samples:
raw[key]['Samples'][0,0]}` (one singleton-nesting level unwrapped); for a
non-analog category (hash, unit, microsaccades) the same key is copied
verbatim. -/
theorem C2_align_normalization (lf key : String)
    (raw : List (String × Except PyErr MatValue))
    (out : List (String × MatValue)) (ws : List String)
    (hnd : (raw.map Prod.fst).Nodup) (hkey : containsAlign key = true)
    (hok : load_data lf raw = .ok (out, ws)) :
    (∀ v ts ss, filetypeOf lf ∈ ["LFP", "LFPb", "MUAe", "NCS", "CSC"] →
      (key, Except.ok v) ∈ raw →
      v.getField "TimeStamps" = .ok (.nest ts) →
      v.getField "Samples" = .ok (.nest ss) →
      out.lookup key = some (.record [("TimeStamps", ts), ("Samples", ss)]))
    ∧ (∀ v, filetypeOf lf ∈ ["hash", "unit", "microsaccades"] →
      (key, Except.ok v) ∈ raw → out.lookup key = some v) := by
  have hok2 : loadDataLoop (filetypeOf lf) raw = .ok (out, ws) := hok
  constructor
  · intro v ts ss hft hmem hts hss
    exact loadDataLoop_lookup_store (filetypeOf lf) raw out ws key
      (Except.ok v) _ hnd hmem hok2
      (processKey_align_analog hkey (lookup_analog_true hft) hts hss)
  · intro v hft hmem
    exact loadDataLoop_lookup_store (filetypeOf lf) raw out ws key
      (Except.ok v) v hnd hmem hok2
      (processKey_align_nonanalog hkey (lookup_analog_false hft))

/-- Claim C2, witness: an analog file (`LFP`) unwraps the aligned field;
a non-analog file (`hash`) copies it verbatim. -/
theorem C2_witness :
    (∃ out ws, load_data "data/LFP.mat"
        [("StimAlign", Except.ok (MatValue.record
          [("TimeStamps", MatValue.nest (MatValue.intArr [1, 2])),
           ("Samples", MatValue.nest (MatValue.intArr [3, 4]))]))] =
        Except.ok (out, ws)
      ∧ out.lookup "StimAlign" = some (MatValue.record
          [("TimeStamps", MatValue.intArr [1, 2]),
           ("Samples", MatValue.intArr [3, 4])]))
    ∧ (∃ out ws, load_data "hash.mat"
        [("StimAlign", Except.ok (MatValue.str "raw"))] = Except.ok (out, ws)
      ∧ out.lookup "StimAlign" = some (MatValue.str "raw")) := by
  constructor
  · refine ⟨[("StimAlign", MatValue.record
      [("TimeStamps", MatValue.intArr [1, 2]),
       ("Samples", MatValue.intArr [3, 4])])], [], rfl, ?_⟩
    exact (C2_align_normalization "data/LFP.mat" "StimAlign"
      [("StimAlign", Except.ok (MatValue.record
        [("TimeStamps", MatValue.nest (MatValue.intArr [1, 2])),
         ("Samples", MatValue.nest (MatValue.intArr [3, 4]))]))]
      [("StimAlign", MatValue.record
        [("TimeStamps", MatValue.intArr [1, 2]),
         ("Samples", MatValue.intArr [3, 4])])] []
      (by decide) (by decide) rfl).1 _ _ _ (by decide)
      (List.mem_singleton.mpr rfl) rfl rfl
  · refine ⟨[("StimAlign", MatValue.str "raw")], [], rfl, ?_⟩
    exact (C2_align_normalization "hash.mat" "StimAlign"
      [("StimAlign", Except.ok (MatValue.str "raw"))]
      [("StimAlign", MatValue.str "raw")] []
      (by decide) (by decide) rfl).2 _ (by decide)
      (List.mem_singleton.mpr rfl)

/-! ## Claim C5 -/

/-- Claim C5: a key containing `Align` whose filetype category (derived
from the filename) is outside the eight-entry analog lookup table makes
`load_data` raise a fatal KeyError for that key; it is never silently
treated as non-analog. -/
theorem C5_unknown_category_fatal (lf key : String)
    (ev : Except PyErr MatValue)
    (raw : List (String × Except PyErr MatValue))
    (hkey : containsAlign key = true)
    (hft : filetypeOf lf ∉ ["LFP", "LFPb", "MUAe", "NCS", "CSC", "hash",
      "unit", "microsaccades"])
    (hmem : (key, ev) ∈ raw) :
    processKey (filetypeOf lf) key ev = .error (.keyError (filetypeOf lf))
    ∧ ∃ e, load_data lf raw = .error e := by
  have hpk := processKey_align_unknown ev hkey (lookup_analog_none hft)
  exact ⟨hpk, loadDataLoop_error_of_mem (filetypeOf lf) raw key ev _ hmem hpk⟩

/-- Claim C5, witness: filetype `foo` (from `foo.mat`) is not in the
table, so the aligned key is a fatal KeyError. -/
theorem C5_witness :
    processKey (filetypeOf "foo.mat") "StimAlign"
        (Except.ok (MatValue.str "x")) = Except.error (PyErr.keyError "foo")
    ∧ ∃ e, load_data "foo.mat"
        [("StimAlign", Except.ok (MatValue.str "x"))] = Except.error e := by
  have h := C5_unknown_category_fatal "foo.mat" "StimAlign"
    (Except.ok (MatValue.str "x"))
    [("StimAlign", Except.ok (MatValue.str "x"))] (by decide) (by decide)
    (List.mem_singleton.mpr rfl)
  exact ⟨h.1, h.2⟩

/-! ## Claim C7 -/

/-- Claim C7: when `load_data` returns, every key of the raw record is
present in the output mapping unless that key's default verbatim copy
failed; a failing copy yields a `Cannot process` warning naming the key,
the key is omitted, and the remaining keys are still processed into the
returned (partial) mapping. -/
theorem C7_key_preservation (lf : String)
    (raw : List (String × Except PyErr MatValue))
    (out : List (String × MatValue)) (ws : List String)
    (hnd : (raw.map Prod.fst).Nodup)
    (hok : load_data lf raw = .ok (out, ws)) :
    (∀ k ev, (k, ev) ∈ raw →
      (out.lookup k).isSome = true ∨
        (out.lookup k = none ∧ ("Cannot process " ++ k) ∈ ws))
    ∧ ∀ k e, (k, Except.error e) ∈ raw → containsAlign k = false →
        k ≠ "area" → k ≠ "unitList" →
        out.lookup k = none ∧ ("Cannot process " ++ k) ∈ ws := by
  have hok2 : loadDataLoop (filetypeOf lf) raw = .ok (out, ws) := hok
  constructor
  · intro k ev hmem
    cases hpk : processKey (filetypeOf lf) k ev with
    | error e =>
      obtain ⟨e2, he⟩ :=
        loadDataLoop_error_of_mem (filetypeOf lf) raw k ev e hmem hpk
      rw [he] at hok2
      cases hok2
    | ok kr =>
      cases kr with
      | store v =>
        left
        rw [loadDataLoop_lookup_store (filetypeOf lf) raw out ws k ev v hnd
          hmem hok2 hpk]
        rfl
      | warn w =>
        right
        have hw := processKey_warn_shape hpk
        have hlw := loadDataLoop_lookup_warn (filetypeOf lf) raw out ws k ev w
          hnd hmem hok2 hpk
        exact ⟨hlw.1, hw.1 ▸ hlw.2⟩
  · intro k e hmem hc h1 h2
    have hpk := processKey_default_warn (filetypeOf lf) e hc h1 h2
    exact loadDataLoop_lookup_warn (filetypeOf lf) raw out ws k
      (Except.error e) _ hnd hmem hok2 hpk

/-- Claim C7, witness: a record with one copyable key and one key whose
retrieval raises — the first is kept, the second is dropped with a
warning naming it, and a partial mapping is still returned. -/
theorem C7_witness :
    ∃ out ws, load_data "unit.mat"
        [("good", Except.ok (MatValue.int 7)),
         ("bad", Except.error (PyErr.typeError "boom"))] = Except.ok (out, ws)
      ∧ (out.lookup "good").isSome = true
      ∧ out.lookup "bad" = none ∧ ("Cannot process " ++ "bad") ∈ ws := by
  refine ⟨[("good", MatValue.int 7)], ["Cannot process " ++ "bad"], rfl,
    ?_, ?_⟩
  · rcases (C7_key_preservation "unit.mat"
      [("good", Except.ok (MatValue.int 7)),
       ("bad", Except.error (PyErr.typeError "boom"))] _ _
      (by decide) rfl).1 "good"
      (Except.ok (MatValue.int 7)) (List.mem_cons_self _ _) with h | h
    · exact h
    · exact Option.noConfusion h.1
  · exact (C7_key_preservation "unit.mat"
      [("good", Except.ok (MatValue.int 7)),
       ("bad", Except.error (PyErr.typeError "boom"))] _ _
      (by decide) rfl).2 "bad"
      (PyErr.typeError "boom")
      (List.mem_cons_of_mem _ (List.mem_singleton.mpr rfl))
      (by decide) (by decide) (by decide)

/-! ## Claim C9 -/

/-- Claim C9: `load_data` maps `unitList` to its raw array with every
element decremented by one, and copies `area` verbatim. -/
theorem C9_unitlist_area (lf : String)
    (raw : List (String × Except PyErr MatValue))
    (out : List (String × MatValue)) (ws : List String)
    (hnd : (raw.map Prod.fst).Nodup)
    (hok : load_data lf raw = .ok (out, ws)) :
    (∀ l : List Int, ("unitList", Except.ok (MatValue.intArr l)) ∈ raw →
      out.lookup "unitList" = some (.intArr (l.map fun x => x - 1)))
    ∧ ∀ v : MatValue, ("area", Except.ok v) ∈ raw →
        out.lookup "area" = some v := by
  have hok2 : loadDataLoop (filetypeOf lf) raw = .ok (out, ws) := hok
  constructor
  · intro l hmem
    exact loadDataLoop_lookup_store (filetypeOf lf) raw out ws "unitList"
      _ _ hnd hmem hok2 processKey_unitList
  · intro v hmem
    exact loadDataLoop_lookup_store (filetypeOf lf) raw out ws "area"
      _ _ hnd hmem hok2 processKey_area

/-- Claim C9, witness: the record `{unitList: [1,2,3], area: "V1"}` yields
`{unitList: [0,1,2], area: "V1"}`. -/
theorem C9_witness :
    ∃ out ws, load_data "unit.mat"
        [("unitList", Except.ok (MatValue.intArr [1, 2, 3])),
         ("area", Except.ok (MatValue.str "V1"))] = Except.ok (out, ws)
      ∧ out.lookup "unitList" = some (MatValue.intArr [0, 1, 2])
      ∧ out.lookup "area" = some (MatValue.str "V1") := by
  refine ⟨[("unitList", MatValue.intArr [0, 1, 2]),
    ("area", MatValue.str "V1")], [], rfl, ?_, ?_⟩
  · exact (C9_unitlist_area "unit.mat"
      [("unitList", Except.ok (MatValue.intArr [1, 2, 3])),
       ("area", Except.ok (MatValue.str "V1"))] _ _
      (by decide) rfl).1 [1, 2, 3] (List.mem_cons_self _ _)
  · exact (C9_unitlist_area "unit.mat"
      [("unitList", Except.ok (MatValue.intArr [1, 2, 3])),
       ("area", Except.ok (MatValue.str "V1"))] _ _
      (by decide) rfl).2
      (MatValue.str "V1") (List.mem_cons_of_mem _ (List.mem_singleton.mpr rfl))

/-! ## Facts about the trial-table loop -/

theorem extractScalar_eq {t : List MatValue} {i : Nat} {n : Int}
    (h : t.get? i = some (.nest (.int n))) : extractScalar t i = Except.ok n := by
  have h2 : t[i]? = some (MatValue.nest (MatValue.int n)) := by
    simpa [List.get?_eq_getElem?] using h
  simp [extractScalar, pyGet_natCast, h, h2, MatValue.get00, MatValue.toInt,
    bind, Except.bind]

theorem extractRow_ok_of_wf {t : List MatValue} (h : wfTrial t = true) :
    ∃ r, extractRow t = Except.ok r := by
  rw [wfTrial, Bool.and_eq_true, decide_eq_true_eq, List.all_eq_true] at h
  obtain ⟨hlen, hall⟩ := h
  have g : ∀ i : Nat, 2 ≤ i → i < 12 →
      ∃ n, t.get? i = some (MatValue.nest (MatValue.int n)) := by
    intro i h2 h12
    have hj := hall (i - 2) (List.mem_range.mpr (by omega))
    have he : i - 2 + 2 = i := by omega
    rw [he] at hj
    rcases hg : t.get? i with _ | v
    · rw [hg] at hj; simp at hj
    · rw [hg] at hj
      cases v with
      | nest w =>
        cases w with
        | int n => exact ⟨n, rfl⟩
        | intArr a => simp [isNestInt] at hj
        | str a => simp [isNestInt] at hj
        | record a => simp [isNestInt] at hj
        | nest a => simp [isNestInt] at hj
      | int a => simp [isNestInt] at hj
      | intArr a => simp [isNestInt] at hj
      | str a => simp [isNestInt] at hj
      | record a => simp [isNestInt] at hj
  obtain ⟨n2, e2⟩ := g 2 (by omega) (by omega)
  obtain ⟨n3, e3⟩ := g 3 (by omega) (by omega)
  obtain ⟨n4, e4⟩ := g 4 (by omega) (by omega)
  obtain ⟨n5, e5⟩ := g 5 (by omega) (by omega)
  obtain ⟨n6, e6⟩ := g 6 (by omega) (by omega)
  obtain ⟨n7, e7⟩ := g 7 (by omega) (by omega)
  obtain ⟨n8, e8⟩ := g 8 (by omega) (by omega)
  obtain ⟨n9, e9⟩ := g 9 (by omega) (by omega)
  obtain ⟨n10, e10⟩ := g 10 (by omega) (by omega)
  obtain ⟨n11, e11⟩ := g 11 (by omega) (by omega)
  have h0 : t.get? 0 = some (t.get ⟨0, by omega⟩) := List.get?_eq_get _
  have h1 : t.get? 1 = some (t.get ⟨1, by omega⟩) := List.get?_eq_get _
  have p0 : pyGet t (0 : Int) = Except.ok (t.get ⟨0, by omega⟩) := by
    have hc := pyGet_natCast t 0
    rw [h0] at hc
    exact hc
  have p1 : pyGet t (1 : Int) = Except.ok (t.get ⟨1, by omega⟩) := by
    have hc := pyGet_natCast t 1
    rw [h1] at hc
    exact hc
  refine ⟨⟨n2, n3, n4, n5, n6, n7, n8, n9, n10, n11,
    t.get ⟨0, by omega⟩, t.get ⟨1, by omega⟩⟩, ?_⟩
  simp [extractRow, p0, p1, extractScalar_eq e2, extractScalar_eq e3,
    extractScalar_eq e4, extractScalar_eq e5, extractScalar_eq e6,
    extractScalar_eq e7, extractScalar_eq e8, extractScalar_eq e9,
    extractScalar_eq e10, extractScalar_eq e11, bind, Except.bind,
    pure, Except.pure]

theorem extractRow_ok_length {t : List MatValue} {r : TrialRow}
    (h : extractRow t = Except.ok r) : 12 ≤ t.length := by
  unfold extractRow at h
  obtain ⟨v0, h0, h⟩ := except_bind_ok h
  obtain ⟨v1, h1, h⟩ := except_bind_ok h
  obtain ⟨a2, g2, h⟩ := except_bind_ok h
  obtain ⟨a3, g3, h⟩ := except_bind_ok h
  obtain ⟨a4, g4, h⟩ := except_bind_ok h
  obtain ⟨a5, g5, h⟩ := except_bind_ok h
  obtain ⟨a6, g6, h⟩ := except_bind_ok h
  obtain ⟨a7, g7, h⟩ := except_bind_ok h
  obtain ⟨a8, g8, h⟩ := except_bind_ok h
  obtain ⟨a9, g9, h⟩ := except_bind_ok h
  obtain ⟨a10, g10, h⟩ := except_bind_ok h
  obtain ⟨a11, g11, h⟩ := except_bind_ok h
  unfold extractScalar at g11
  obtain ⟨w, hw, g11b⟩ := except_bind_ok g11
  have := (pyGet_ok_lt hw).1
  omega

theorem mapExcept_ok_length {α β : Type} (f : α → Except PyErr β) :
    ∀ (xs : List α) (ys : List β), mapExcept f xs = Except.ok ys →
      ys.length = xs.length := by
  intro xs
  induction xs with
  | nil =>
    intro ys h
    simp only [mapExcept, Except.ok.injEq] at h
    rw [← h]
    rfl
  | cons x xs ih =>
    intro ys h
    unfold mapExcept at h
    obtain ⟨y, hy, h⟩ := except_bind_ok h
    obtain ⟨ys2, hys, h⟩ := except_bind_ok h
    simp only [pure, Except.pure, Except.ok.injEq] at h
    rw [← h]
    simp [ih ys2 hys]

theorem mapExcept_ok_of_all {α β : Type} (f : α → Except PyErr β)
    (xs : List α) (hall : ∀ x ∈ xs, ∃ y, f x = Except.ok y) :
    ∃ ys, mapExcept f xs = Except.ok ys := by
  induction xs with
  | nil => exact ⟨[], rfl⟩
  | cons x xs ih =>
    obtain ⟨y, hy⟩ := hall x (by simp)
    obtain ⟨ys, hys⟩ := ih fun a ha => hall a (by simp [ha])
    exact ⟨y :: ys, by
      simp [mapExcept, hy, hys, bind, Except.bind, pure, Except.pure]⟩

theorem mapExcept_ok_mem {α β : Type} (f : α → Except PyErr β) :
    ∀ (xs : List α) (ys : List β), mapExcept f xs = Except.ok ys →
      ∀ x ∈ xs, ∃ y, f x = Except.ok y := by
  intro xs
  induction xs with
  | nil => intro ys h x hx; cases hx
  | cons x xs ih =>
    intro ys h a ha
    unfold mapExcept at h
    obtain ⟨y, hy, h⟩ := except_bind_ok h
    obtain ⟨ys2, hys, h⟩ := except_bind_ok h
    rcases List.mem_cons.mp ha with rfl | ha2
    · exact ⟨y, hy⟩
    · exact ih ys2 hys a ha2

/-! ## Claim C4 -/

/-- Claim C4: the derived attention column is the pointwise image of the
condition column under the deterministic map sending 1 and 4 to 1, 2 and
5 to 2, 3 and 6 to 3, and every other code to 0. -/
theorem C4_attend_mapping (trials : List (List MatValue)) (table : TrialTable)
    (h : load_trialdata trials = .ok table) :
    table.attend = table.cond.map attendOf
    ∧ ∀ c : Int, attendOf c =
        if c = 1 ∨ c = 4 then 1
        else if c = 2 ∨ c = 5 then 2
        else if c = 3 ∨ c = 6 then 3 else 0 := by
  constructor
  · unfold load_trialdata at h
    obtain ⟨rows, hrows, h⟩ := except_bind_ok h
    simp only [pure, Except.pure, Except.ok.injEq] at h
    rw [← h]
  · intro c
    simp only [attendOf]
    split_ifs <;> omega

/-- Claim C4, witness: condition codes 1–7 yield attention values
`[1, 2, 3, 1, 2, 3, 0]`. -/
theorem C4_witness :
    load_trialdata c4Trials = Except.ok c4Table
    ∧ c4Table.attend = c4Table.cond.map attendOf
    ∧ c4Table.cond = [1, 2, 3, 4, 5, 6, 7]
    ∧ c4Table.attend = [1, 2, 3, 1, 2, 3, 0] := by
  have h : load_trialdata c4Trials = Except.ok c4Table := by rfl
  exact ⟨h, (C4_attend_mapping c4Trials c4Table h).1, rfl, rfl⟩

/-! ## Claim C6 -/

/-- Claim C6: when every trial record of the legacy format has its 12
positional fields, `load_trialdata` returns a table with one row per
trial; if any trial has fewer than 12 positional fields, the call fails
and no table is returned. -/
theorem C6_trial_row_count (trials : List (List MatValue)) :
    ((∀ t ∈ trials, wfTrial t = true) →
      ∃ table, load_trialdata trials = .ok table ∧
        table.rowCount = trials.length)
    ∧ ((∃ t ∈ trials, t.length < 12) →
      ∃ e, load_trialdata trials = .error e) := by
  constructor
  · intro hwf
    obtain ⟨rows, hrows⟩ := mapExcept_ok_of_all extractRow trials
      fun t ht => extractRow_ok_of_wf (hwf t ht)
    refine ⟨{ trial_ID := rows.map TrialRow.trial_ID
              attend := (rows.map TrialRow.cond).map attendOf
              cond := rows.map TrialRow.cond
              RT_evnt := rows.map TrialRow.RT_evnt
              RT_EPP := rows.map TrialRow.RT_EPP
              target_dim := rows.map TrialRow.target_dim
              rf_dim := rows.map TrialRow.rf_dim
              position_RF := rows.map TrialRow.position_RF
              position_out1 := rows.map TrialRow.position_out1
              position_out2 := rows.map TrialRow.position_out2
              fixbreak := rows.map TrialRow.fixbreak
              CTX_events := rows.map TrialRow.CTX_events
              NLX_events := rows.map TrialRow.NLX_events }, ?_, ?_⟩
    · simp [load_trialdata, hrows, bind, Except.bind, pure, Except.pure]
    · simp [TrialTable.rowCount,
        mapExcept_ok_length extractRow trials rows hrows]
  · rintro ⟨t0, ht0, hlen⟩
    cases hld : load_trialdata trials with
    | error e => exact ⟨e, rfl⟩
    | ok table =>
      exfalso
      unfold load_trialdata at hld
      obtain ⟨rows, hrows, _⟩ := except_bind_ok hld
      obtain ⟨r, hr⟩ := mapExcept_ok_mem extractRow trials rows hrows t0 ht0
      exact absurd (extractRow_ok_length hr) (by omega)

/-- Claim C6, witness: two well-formed trials give a two-row table; one
11-field trial makes the call fail. -/
theorem C6_witness :
    (∀ t ∈ c6Trials, wfTrial t = true)
    ∧ (∃ table, load_trialdata c6Trials = Except.ok table ∧
        table.rowCount = c6Trials.length)
    ∧ (∃ t ∈ c6Bad, t.length < 12)
    ∧ ∃ e, load_trialdata c6Bad = Except.error e :=
  ⟨by decide, (C6_trial_row_count c6Trials).1 (by decide), by decide,
    (C6_trial_row_count c6Bad).2 (by decide)⟩

end Demos
